import Mathlib

/-!
Shallow embedding of the AWS-specific validation pass of
`pkg/apis/kops/validation/aws.go`, together with theorems checking the
natural-language specification against it.

The embedding mirrors the Go source function by function.  External
collaborators (the apimachinery `field` error package, the Go standard
library's `strings`, `strconv` and `net` helpers, and the cloud capability
port) are modelled by small executable Lean functions; each model carries a
doc comment explaining its scope.
-/

namespace KopsValidation

/-! ## Path and error model (apimachinery `field` package) -/

/-- One segment of a field path: a field name or an index into a list field. -/
inductive PathSeg where
  | field : String → PathSeg
  | idx : Nat → PathSeg
deriving DecidableEq, Repr

/-- A field path is the ordered list of its segments (`field.Path`). -/
abbrev Path := List PathSeg

/-- `(*field.Path).Child`: append a field-name segment. -/
def Path.child (p : Path) (name : String) : Path := p ++ [PathSeg.field name]

/-- `(*field.Path).Index`: append an index segment. -/
def Path.index (p : Path) (i : Nat) : Path := p ++ [PathSeg.idx i]

/-- `field.NewPath`: a path made of field-name segments. -/
def NewPath (names : List String) : Path := names.map PathSeg.field

/-- The closed set of error kinds used by the validators. -/
inductive ErrKind where
  | Required
  | Invalid
  | Forbidden
  | NotFound
  | Duplicate
  | Unsupported
deriving DecidableEq, Repr

/-- A structured validation error (`field.Error`): kind, path, optional
offending value (rendered as a string) and a human-readable detail. -/
structure VError where
  kind : ErrKind
  path : Path
  badValue : Option String
  detail : String
deriving DecidableEq, Repr

/-! ## Models of Go standard-library helpers -/

/-- Model of Go `unicode.IsSpace` (the code points Go treats as white space). -/
def goIsSpace (c : Char) : Bool :=
  c == '\t' || c == '\n' || c == '\x0b' || c == '\x0c' || c == '\r' || c == ' ' ||
  c == '\x85' || c == '\xa0' ||
  c.toNat == 0x1680 || (0x2000 ≤ c.toNat && c.toNat ≤ 0x200a) ||
  c.toNat == 0x2028 || c.toNat == 0x2029 || c.toNat == 0x202f ||
  c.toNat == 0x205f || c.toNat == 0x3000

/-- Model of Go `strings.TrimSpace`: drop white space from both ends. -/
def goTrimSpace (s : String) : String :=
  ⟨((s.data.dropWhile goIsSpace).reverse.dropWhile goIsSpace).reverse⟩

/-- Model of Go `strings.HasPrefix`. -/
def goHasPrefix (p s : String) : Bool := p.data.isPrefixOf s.data

/-- Split a character list around every occurrence of the separator. -/
def goSplitAux (sep : Char) : List Char → List Char → List String
  | [], cur => [⟨cur.reverse⟩]
  | c :: rest, cur =>
    if c = sep then ⟨cur.reverse⟩ :: goSplitAux sep rest []
    else goSplitAux sep rest (c :: cur)

/-- Model of Go `strings.Split` for a one-character separator: the list of
substrings between occurrences of `sep` (`Split("", sep) = [""]`). -/
def goSplit (s : String) (sep : Char) : List String := goSplitAux sep s.data []

/-- Numeric value of a list of decimal digit characters. -/
def digitsVal (cs : List Char) : Nat :=
  cs.foldl (fun a c => a * 10 + (c.toNat - 48)) 0

/-- Model of one dotted-decimal field of Go `net.ParseIP`'s IPv4 parser:
one to three decimal digits, no leading zero, value at most 255. -/
def goParseIPv4Field (s : String) : Option Nat :=
  let cs := s.data
  if cs.isEmpty then none
  else if !cs.all (fun c => c.isDigit) then none
  else if cs.length > 3 then none
  else if cs.length > 1 && cs.head? == some '0' then none
  else
    let v := digitsVal cs
    if v ≤ 255 then some v else none

/-- Model of `net.ParseIP` followed by `To4()`: parse a dotted-decimal IPv4
literal into its four bytes.  Strings that are not in IPv4 dotted-decimal
form (including IPv6 literals, for which `To4` would return nil) are
rejected; the IPv4-mapped IPv6 forms Go would additionally accept are out
of this model's scope. -/
def goParseIPv4 (s : String) : Option (Nat × Nat × Nat × Nat) :=
  match goSplit s '.' with
  | [p1, p2, p3, p4] =>
    match goParseIPv4Field p1, goParseIPv4Field p2,
          goParseIPv4Field p3, goParseIPv4Field p4 with
    | some a, some b, some c, some d => some (a, b, c, d)
    | _, _, _, _ => none
  | _ => none

/-- Model of the prefix-length part of `net.ParseCIDR`: decimal digits with
value at most 32. -/
def goParseMaskLen (s : String) : Option Nat :=
  let cs := s.data
  if cs.isEmpty then none
  else if !cs.all (fun c => c.isDigit) then none
  else if cs.length > 3 then none
  else
    let v := digitsVal cs
    if v ≤ 32 then some v else none

/-- Model of `net.ParseCIDR` restricted to IPv4 networks: an IPv4 literal, a
slash and a prefix length. -/
def goParseCIDR (s : String) : Option ((Nat × Nat × Nat × Nat) × Nat) :=
  match goSplit s '/' with
  | [ipStr, maskStr] =>
    match goParseIPv4 ipStr, goParseMaskLen maskStr with
    | some ip, some m => some (ip, m)
    | _, _ => none
  | _ => none

/-- The 32-bit value of an IPv4 address given as four bytes. -/
def ipVal (ip : Nat × Nat × Nat × Nat) : Nat :=
  ((ip.1 * 256 + ip.2.1) * 256 + ip.2.2.1) * 256 + ip.2.2.2

/-- Model of `(*net.IPNet).Contains`: the address agrees with the network
address on the first `cidr.2` bits. -/
def cidrContains (cidr : (Nat × Nat × Nat × Nat) × Nat) (ip : Nat × Nat × Nat × Nat) : Bool :=
  ipVal ip / 2 ^ (32 - cidr.2) == ipVal cidr.1 / 2 ^ (32 - cidr.2)

/-- Fuel-driven accumulator for decimal digits, most significant first. -/
def toDigitsAux : Nat → Nat → List Nat → List Nat
  | 0, _, acc => acc
  | fuel + 1, n, acc =>
    if n < 10 then n :: acc
    else toDigitsAux fuel (n / 10) (n % 10 :: acc)

/-- The decimal digits of `n`, most significant first. -/
def natDigits (n : Nat) : List Nat := toDigitsAux (n + 1) n []

/-- The decimal string of a natural number. -/
def natStr (n : Nat) : String := ⟨(natDigits n).map Nat.digitChar⟩

/-- Model of Go `strconv.FormatInt(v, 10)`: decimal rendering of an integer. -/
def formatInt (v : Int) : String :=
  if v < 0 then "-" ++ natStr v.natAbs else natStr v.toNat

/-- Join a list of strings with a separator (Go `strings.Join`). -/
def joinSep (sep : String) : List String → String
  | [] => ""
  | [x] => x
  | x :: y :: xs => x ++ sep ++ joinSep sep (y :: xs)

/-! ## Configuration data model (the externally owned spec aggregates) -/

/-- A load-balancer subnet binding (`kops.LoadBalancerSubnetSpec`). -/
structure LoadBalancerSubnetSpec where
  name : String
  privateIPv4Address : Option String
  allocationID : Option String
deriving DecidableEq, Repr

/-- A cluster subnet record (`kops.ClusterSubnetSpec`), restricted to the
fields the validator reads. -/
structure ClusterSubnetSpec where
  name : String
  cidr : String
deriving DecidableEq, Repr

/-- The API load balancer spec (`kops.LoadBalancerAccessSpec`), restricted to
the fields the subnet validator reads.  `lbClass` and `lbType` stand for the
Go fields `Class` and `Type` (both Lean keywords). -/
structure LoadBalancerAccessSpec where
  lbClass : String
  lbType : String
  subnets : List LoadBalancerSubnetSpec
deriving DecidableEq, Repr

/-- `kops.AccessSpec`, restricted to the load-balancer pointer. -/
structure AccessSpec where
  loadBalancer : Option LoadBalancerAccessSpec
deriving DecidableEq, Repr

/-- `kops.KubeControllerManagerConfig`, restricted to the field read here. -/
structure KubeControllerManagerConfig where
  externalCloudVolumePlugin : String
deriving DecidableEq, Repr

/-- `kops.AWSEBSCSIDriver`: the `Enabled` pointer. -/
structure AWSEBSCSIDriver where
  enabled : Option Bool
deriving DecidableEq, Repr

/-- `kops.CloudConfiguration`, restricted to the CSI-driver pointer. -/
structure CloudConfiguration where
  awsEBSCSIDriver : Option AWSEBSCSIDriver
deriving DecidableEq, Repr

/-- `kops.ClusterSpec`, restricted to the fields the AWS validators read.
`externalCloudControllerManager` models the `*CloudControllerManagerConfig`
pointer, of which only nil-ness is consulted. -/
structure ClusterSpec where
  subnets : List ClusterSubnetSpec
  api : Option AccessSpec
  externalCloudControllerManager : Option Unit
  kubeControllerManager : Option KubeControllerManagerConfig
  cloudConfig : Option CloudConfiguration
deriving DecidableEq, Repr

/-- `kops.InstanceMetadataOptions`. -/
structure InstanceMetadataOptions where
  httpTokens : Option String
  httpPutResponseHopLimit : Option Int
deriving DecidableEq, Repr

/-- `kops.MixedInstancesPolicySpec`. -/
structure MixedInstancesPolicySpec where
  instances : List String
  onDemandBase : Option Int
  onDemandAboveBase : Option Int
  spotAllocationStrategy : Option String
deriving DecidableEq, Repr

/-- `kops.InstanceGroupSpec`, restricted to the fields the AWS validators
read (`maxSize` is the `*int32` `MaxSize`). -/
structure InstanceGroupSpec where
  additionalSecurityGroups : List String
  machineType : String
  spotDurationInMinutes : Option Int
  instanceInterruptionBehavior : Option String
  maxSize : Option Int
  mixedInstancesPolicy : Option MixedInstancesPolicySpec
  instanceMetadata : Option InstanceMetadataOptions
deriving DecidableEq, Repr

/-- `kops.InstanceGroup`: object name plus spec. -/
structure InstanceGroup where
  name : String
  spec : InstanceGroupSpec
deriving DecidableEq, Repr

/-- Model of the cloud capability port (`awsup.AWSCloud`): `none` is a nil
port; `some resolve` is a session where `resolve t = true` exactly when
`DescribeInstanceType(t)` returns without error. -/
abbrev AWSCloud : Type := Option (String → Bool)

/-- Modelled from the spec: the repository's `fi.BoolValue` pointer helper
(its source is not among the provided files); a nil pointer reads as
`false`, so the CSI driver counts as enabled only when `Enabled` points at
`true`. -/
def BoolValue (v : Option Bool) : Bool := v.getD false

/-- Modelled from the spec: the repository's `fi.Int64Value` pointer helper
(source not among the provided files); a nil pointer reads as 0. -/
def Int64Value (v : Option Int) : Int := v.getD 0

/-- Modelled from the spec: the repository's `fi.Int32Value` pointer helper
(source not among the provided files); a nil pointer reads as 0. -/
def Int32Value (v : Option Int) : Int := v.getD 0

/-- `kops.LoadBalancerClassNetwork` (constant of the external object model). -/
def LoadBalancerClassNetwork : String := "Network"

/-- `kops.LoadBalancerClassClassic` (constant of the external object model). -/
def LoadBalancerClassClassic : String := "Classic"

/-- `kops.LoadBalancerTypeInternal` (constant of the external object model). -/
def LoadBalancerTypeInternal : String := "Internal"

/-- `kops.LoadBalancerTypePublic` (constant of the external object model). -/
def LoadBalancerTypePublic : String := "Public"

/-- `ec2.InstanceInterruptionBehavior_Values()` from the AWS SDK collaborator
(the tests exercise exactly these three values). -/
def InstanceInterruptionBehaviorValues : List String := ["hibernate", "stop", "terminate"]

/-- Modelled from the spec: `kops.SpotAllocationStrategies`, "the provider's
defined allocation strategies" (§4.3); the exact contents are not given in
the provided sources and no claim depends on them. -/
def SpotAllocationStrategies : List String :=
  ["lowest-price", "capacity-optimized", "capacity-optimized-prioritized"]

/-- Modelled from the spec: the generic enumeration check `IsValidValue`
(§4.2), whose implementation is not among the provided source files: a
present value not in the allowed list yields a single Unsupported error at
the field path whose detail lists the allowed set; an absent value yields no
error. -/
def IsValidValue (fieldPath : Path) (v : Option String) (validValues : List String) : List VError :=
  match v with
  | none => []
  | some s =>
    if validValues.contains s then []
    else [⟨.Unsupported, fieldPath, some s,
           "supported values: " ++ joinSep ", " validValues⟩]

/-! ## The validators of `aws.go` -/

/-- `awsValidateExternalCloudControllerManager`. -/
def awsValidateExternalCloudControllerManager (c : ClusterSpec) : List VError :=
  match c.externalCloudControllerManager with
  | none => []
  | some _ =>
    let volumePluginIsAWS : Bool :=
      match c.kubeControllerManager with
      | none => false
      | some kcm => kcm.externalCloudVolumePlugin == "aws"
    let csiEnabled : Bool :=
      match c.cloudConfig with
      | none => false
      | some cc =>
        match cc.awsEBSCSIDriver with
        | none => false
        | some d => BoolValue d.enabled
    if !volumePluginIsAWS && !csiEnabled then
      [⟨.Forbidden, NewPath ["spec", "externalCloudControllerManager"], none,
        "AWS external CCM cannot be used without enabling spec.cloudConfig.AWSEBSCSIDriver or setting spec.kubeControllerManaager.externalCloudVolumePlugin set to `aws`"⟩]
    else []

/-- `awsValidateInstanceMetadata`. -/
def awsValidateInstanceMetadata (fieldPath : Path) (instanceMetadata : InstanceMetadataOptions) : List VError :=
  (match instanceMetadata.httpTokens with
   | none => []
   | some _ =>
     IsValidValue (Path.child fieldPath "httpTokens") instanceMetadata.httpTokens
       ["optional", "required"])
  ++
  (match instanceMetadata.httpPutResponseHopLimit with
   | none => []
   | some _ =>
     let httpPutResponseHopLimit := Int64Value instanceMetadata.httpPutResponseHopLimit
     if httpPutResponseHopLimit < 1 ∨ httpPutResponseHopLimit > 64 then
       [⟨.Invalid, Path.child fieldPath "httpPutResponseHopLimit",
         some (formatInt httpPutResponseHopLimit),
         "HTTPPutResponseLimit must be a value between 1 and 64"⟩]
     else [])

/-- The loop body chain of `awsValidateAdditionalSecurityGroups`: `i` is the
index of the next entry, `names` the entries already inserted into the seen
set. -/
def awsValidateSecurityGroupsFrom (fieldPath : Path) : Nat → List String → List String → List VError
  | _, _, [] => []
  | i, names, s :: rest =>
    (if names.contains s then [⟨.Duplicate, Path.index fieldPath i, some s, "duplicate"⟩] else [])
    ++
    (if goTrimSpace s = "" then
      [⟨.Invalid, Path.index fieldPath i, some s, "security group cannot be empty, if specified"⟩]
     else if goHasPrefix "sg-" s then []
     else
      [⟨.Invalid, Path.index fieldPath i, some s, "security group does not match the expected AWS format"⟩])
    ++ awsValidateSecurityGroupsFrom fieldPath (i + 1) (s :: names) rest

/-- `awsValidateAdditionalSecurityGroups`. -/
def awsValidateAdditionalSecurityGroups (fieldPath : Path) (groups : List String) : List VError :=
  awsValidateSecurityGroupsFrom fieldPath 0 [] groups

/-- `awsValidateInstanceType`: with a live port and a non-empty value, each
comma-separated candidate that fails to resolve yields one Invalid at the
parent path. -/
def awsValidateInstanceType (fieldPath : Path) (instanceType : String) (cloud : AWSCloud) : List VError :=
  match cloud with
  | none => []
  | some resolve =>
    if instanceType = "" then []
    else
      (goSplit instanceType ',').flatMap (fun typ =>
        if resolve typ then []
        else [⟨.Invalid, fieldPath, some typ, "machine type specified is invalid"⟩])

/-- The `validSpotDurations` literal of `awsValidateSpotDurationInMinute`. -/
def validSpotDurations : List String := ["60", "120", "180", "240", "300", "360"]

/-- `awsValidateSpotDurationInMinute`. -/
def awsValidateSpotDurationInMinute (fieldPath : Path) (ig : InstanceGroup) : List VError :=
  match ig.spec.spotDurationInMinutes with
  | none => []
  | some v =>
    let spotDurationStr := formatInt v
    IsValidValue fieldPath (some spotDurationStr) validSpotDurations

/-- `awsValidateInstanceInterruptionBehavior`. -/
def awsValidateInstanceInterruptionBehavior (fieldPath : Path) (ig : InstanceGroup) : List VError :=
  match ig.spec.instanceInterruptionBehavior with
  | none => []
  | some b => IsValidValue fieldPath (some b) InstanceInterruptionBehaviorValues

/-- `awsValidateMixedInstancesPolicy`. -/
def awsValidateMixedInstancesPolicy (path : Path) (spec : MixedInstancesPolicySpec)
    (ig : InstanceGroup) (cloud : AWSCloud) : List VError :=
  (spec.instances.enum.flatMap (fun ix =>
    awsValidateInstanceType (Path.index (Path.child path "instances") ix.1) ix.2 cloud))
  ++
  (match spec.onDemandBase with
   | none => []
   | some _ =>
     (if Int64Value spec.onDemandBase < 0 then
       [⟨.Invalid, Path.child path "onDemandBase",
         some (formatInt (Int64Value spec.onDemandBase)), "cannot be less than zero"⟩]
      else [])
     ++
     (if Int64Value spec.onDemandBase > Int32Value ig.spec.maxSize then
       [⟨.Invalid, Path.child path "onDemandBase",
         some (formatInt (Int64Value spec.onDemandBase)), "cannot be greater than max size"⟩]
      else []))
  ++
  (match spec.onDemandAboveBase with
   | none => []
   | some _ =>
     (if Int64Value spec.onDemandAboveBase < 0 then
       [⟨.Invalid, Path.child path "onDemandAboveBase",
         some (formatInt (Int64Value spec.onDemandAboveBase)), "cannot be less than 0"⟩]
      else [])
     ++
     (if Int64Value spec.onDemandAboveBase > 100 then
       [⟨.Invalid, Path.child path "onDemandAboveBase",
         some (formatInt (Int64Value spec.onDemandAboveBase)), "cannot be greater than 100"⟩]
      else []))
  ++ IsValidValue (Path.child path "spotAllocationStrategy") spec.spotAllocationStrategy
       SpotAllocationStrategies

/-- `awsValidateInstanceGroup`: the fixed-order concatenation of the
instance-group rules.  Note which rules receive the group-name-rooted path
and which receive a plain `spec`-rooted path. -/
def awsValidateInstanceGroup (ig : InstanceGroup) (cloud : AWSCloud) : List VError :=
  awsValidateAdditionalSecurityGroups (NewPath ["spec", "additionalSecurityGroups"])
    ig.spec.additionalSecurityGroups
  ++ awsValidateInstanceType (NewPath [ig.name, "spec", "machineType"]) ig.spec.machineType cloud
  ++ awsValidateSpotDurationInMinute (NewPath [ig.name, "spec", "spotDurationInMinutes"]) ig
  ++ awsValidateInstanceInterruptionBehavior
       (NewPath [ig.name, "spec", "instanceInterruptionBehavior"]) ig
  ++ (match ig.spec.mixedInstancesPolicy with
      | none => []
      | some mip =>
        awsValidateMixedInstancesPolicy (NewPath ["spec", "mixedInstancesPolicy"]) mip ig cloud)
  ++ (match ig.spec.instanceMetadata with
      | none => []
      | some md => awsValidateInstanceMetadata (NewPath ["spec", "instanceMetadata"]) md)

/-- The subnet-name block of the loop body of `awsValidateLoadBalancerSubnets`:
its errors together with the resolved cluster subnet (`clusterSubnet` in Go). -/
def lbSubnetNameErrs (fieldPath : Path) (clusterSubnets : List ClusterSubnetSpec)
    (i : Nat) (subnet : LoadBalancerSubnetSpec) : List VError × Option ClusterSubnetSpec :=
  if subnet.name = "" then
    ([⟨.Required, Path.child (Path.index fieldPath i) "name", none,
       "subnet name can\x27t be empty"⟩], none)
  else
    match clusterSubnets.find? (fun cs => subnet.name == cs.name) with
    | some cs => ([], some cs)
    | none =>
      ([⟨.NotFound, Path.child (Path.index fieldPath i) "name",
         some ("subnet \"" ++ subnet.name ++ "\" not found in cluster subnets"), "not found"⟩],
       none)

/-- The private-IPv4-address block of the loop body of
`awsValidateLoadBalancerSubnets`.  The Go code passes the whole binding as
the bad value; the model renders it by its name. -/
def lbSubnetPrivateIPErrs (fieldPath : Path) (lbClass lbType : String)
    (clusterSubnet : Option ClusterSubnetSpec) (i : Nat)
    (subnet : LoadBalancerSubnetSpec) : List VError :=
  match subnet.privateIPv4Address with
  | none => []
  | some addr =>
    (if addr = "" then
      [⟨.Required, Path.child (Path.index fieldPath i) "privateIPv4Address", none,
        "privateIPv4Address can\x27t be empty"⟩]
     else [])
    ++
    (match goParseIPv4 addr with
     | none =>
       [⟨.Invalid, Path.child (Path.index fieldPath i) "privateIPv4Address", some subnet.name,
         "privateIPv4Address is not a valid IPv4 address"⟩]
     | some ip =>
       match clusterSubnet with
       | none => []
       | some cs =>
         match goParseCIDR cs.cidr with
         | none => []
         | some cidr =>
           if cidrContains cidr ip then []
           else
             [⟨.Invalid, Path.child (Path.index fieldPath i) "privateIPv4Address",
               some subnet.name, "privateIPv4Address is not part of the subnet CIDR"⟩])
    ++
    (if lbClass ≠ LoadBalancerClassNetwork ∨ lbType ≠ LoadBalancerTypeInternal then
      [⟨.Forbidden, Path.child (Path.index fieldPath i) "privateIPv4Address", none,
        "privateIPv4Address only allowed for internal NLBs"⟩]
     else [])

/-- The allocation-ID block of the loop body of
`awsValidateLoadBalancerSubnets`. -/
def lbSubnetAllocationIDErrs (fieldPath : Path) (lbClass lbType : String)
    (i : Nat) (subnet : LoadBalancerSubnetSpec) : List VError :=
  match subnet.allocationID with
  | none => []
  | some aid =>
    (if aid = "" then
      [⟨.Required, Path.child (Path.index fieldPath i) "allocationID", none,
        "allocationID can\x27t be empty"⟩]
     else [])
    ++
    (if lbClass ≠ LoadBalancerClassNetwork ∨ lbType = LoadBalancerTypeInternal then
      [⟨.Forbidden, Path.child (Path.index fieldPath i) "allocationID", none,
        "allocationID only allowed for Public NLBs"⟩]
     else [])

/-- One iteration of the loop of `awsValidateLoadBalancerSubnets`. -/
def validateLBSubnet (fieldPath : Path) (spec : ClusterSpec) (lbSpec : LoadBalancerAccessSpec)
    (i : Nat) (subnet : LoadBalancerSubnetSpec) : List VError :=
  let r := lbSubnetNameErrs fieldPath spec.subnets i subnet
  r.1 ++ lbSubnetPrivateIPErrs fieldPath lbSpec.lbClass lbSpec.lbType r.2 i subnet
      ++ lbSubnetAllocationIDErrs fieldPath lbSpec.lbClass lbSpec.lbType i subnet

/-- `awsValidateLoadBalancerSubnets`.  The Go function dereferences
`spec.API.LoadBalancer` unconditionally (its caller guarantees both are
non-nil); the nil cases are modelled as empty. -/
def awsValidateLoadBalancerSubnets (fieldPath : Path) (spec : ClusterSpec) : List VError :=
  match spec.api with
  | none => []
  | some api =>
    match api.loadBalancer with
    | none => []
    | some lbSpec =>
      lbSpec.subnets.enum.flatMap (fun ix => validateLBSubnet fieldPath spec lbSpec ix.1 ix.2)

/-- Follows the spec's words (§4.3, additional security groups), for
comparison with the source validator: at index `i`, an entry equal to an
earlier entry emits Duplicate; a blank entry emits Invalid and skips the
prefix check; otherwise an entry without the `sg-` prefix emits Invalid. -/
def securityGroupEntrySpec (fieldPath : Path) (groups : List String) (i : Nat) (s : String) : List VError :=
  (if s ∈ groups.take i then [⟨.Duplicate, Path.index fieldPath i, some s, "duplicate"⟩] else [])
  ++
  (if goTrimSpace s = "" then
    [⟨.Invalid, Path.index fieldPath i, some s, "security group cannot be empty, if specified"⟩]
   else if goHasPrefix "sg-" s then []
   else
    [⟨.Invalid, Path.index fieldPath i, some s, "security group does not match the expected AWS format"⟩])

end KopsValidation

namespace KopsValidation

/-! ## Helper lemmas: decimal formatting -/

theorem toDigitsAux_foldl (fuel : Nat) : ∀ (n : Nat) (acc : List Nat), n < fuel →
    (toDigitsAux fuel n acc).foldl (fun a d => a * 10 + d) 0
      = acc.foldl (fun a d => a * 10 + d) n := by
  induction fuel with
  | zero => intro n acc h; exact absurd h (Nat.not_lt_zero n)
  | succ fuel ih =>
    intro n acc h
    by_cases h10 : n < 10
    · simp [toDigitsAux, h10]
    · have hpos : 0 < n := by omega
      have hrec : n / 10 < fuel := by
        have := Nat.div_lt_self hpos (by omega : 1 < 10)
        omega
      have hmod : n / 10 * 10 + n % 10 = n := by omega
      simp only [toDigitsAux, if_neg h10]
      rw [ih (n / 10) (n % 10 :: acc) hrec]
      simp [hmod]

theorem natDigits_foldl (n : Nat) :
    (natDigits n).foldl (fun a d => a * 10 + d) 0 = n := by
  simpa [natDigits] using toDigitsAux_foldl (n + 1) n [] (Nat.lt_succ_self n)

theorem natDigits_inj {a b : Nat} (h : natDigits a = natDigits b) : a = b := by
  have ha := natDigits_foldl a
  rw [h, natDigits_foldl] at ha
  omega

theorem toDigitsAux_lt (fuel : Nat) : ∀ (n : Nat) (acc : List Nat),
    (∀ d ∈ acc, d < 10) → ∀ d ∈ toDigitsAux fuel n acc, d < 10 := by
  induction fuel with
  | zero => intro n acc hacc d hd; exact hacc d hd
  | succ fuel ih =>
    intro n acc hacc d hd
    by_cases h10 : n < 10
    · simp [toDigitsAux, h10] at hd
      rcases hd with h | h
      · omega
      · exact hacc d h
    · simp only [toDigitsAux, if_neg h10] at hd
      refine ih (n / 10) (n % 10 :: acc) ?_ d hd
      intro e he
      rcases List.mem_cons.mp he with h | h
      · omega
      · exact hacc e h

theorem natDigits_lt (n : Nat) : ∀ d ∈ natDigits n, d < 10 :=
  toDigitsAux_lt (n + 1) n [] (by intro d hd; simp at hd)

theorem toDigitsAux_ne_nil (fuel : Nat) : ∀ (n : Nat) (acc : List Nat), n < fuel →
    toDigitsAux fuel n acc ≠ [] := by
  induction fuel with
  | zero => intro n acc h; exact absurd h (Nat.not_lt_zero n)
  | succ fuel ih =>
    intro n acc h
    by_cases h10 : n < 10
    · simp [toDigitsAux, h10]
    · have hpos : 0 < n := by omega
      have hrec : n / 10 < fuel := by
        have := Nat.div_lt_self hpos (by omega : 1 < 10)
        omega
      simp only [toDigitsAux, if_neg h10]
      exact ih (n / 10) (n % 10 :: acc) hrec

theorem natDigits_ne_nil (n : Nat) : natDigits n ≠ [] :=
  toDigitsAux_ne_nil (n + 1) n [] (Nat.lt_succ_self n)

theorem digitChar_inj10 {d e : Nat} (hd : d < 10) (he : e < 10)
    (h : Nat.digitChar d = Nat.digitChar e) : d = e := by
  interval_cases d <;> interval_cases e <;> revert h <;> decide

theorem digitChar_ne_dash {d : Nat} (hd : d < 10) : Nat.digitChar d ≠ '-' := by
  interval_cases d <;> decide

theorem map_digitChar_inj : ∀ {xs ys : List Nat},
    (∀ d ∈ xs, d < 10) → (∀ d ∈ ys, d < 10) →
    xs.map Nat.digitChar = ys.map Nat.digitChar → xs = ys := by
  intro xs
  induction xs with
  | nil =>
    intro ys _ _ h
    cases ys with
    | nil => rfl
    | cons y ys => simp at h
  | cons x xs ih =>
    intro ys hx hy h
    cases ys with
    | nil => simp at h
    | cons y ys =>
      simp only [List.map_cons, List.cons.injEq] at h
      have hxy : x = y :=
        digitChar_inj10 (hx x (by simp)) (hy y (by simp)) h.1
      have : xs = ys := by
        refine ih ?_ ?_ h.2
        · intro d hd; exact hx d (by simp [hd])
        · intro d hd; exact hy d (by simp [hd])
      rw [hxy, this]

theorem natStr_inj {a b : Nat} (h : natStr a = natStr b) : a = b := by
  have hdata : (natDigits a).map Nat.digitChar = (natDigits b).map Nat.digitChar :=
    congrArg String.data h
  exact natDigits_inj (map_digitChar_inj (natDigits_lt a) (natDigits_lt b) hdata)

theorem natStr_data_cons (n : Nat) :
    ∃ d rest, d < 10 ∧ (natStr n).data = Nat.digitChar d :: rest := by
  cases hd : natDigits n with
  | nil => exact absurd hd (natDigits_ne_nil n)
  | cons d rest =>
    refine ⟨d, rest.map Nat.digitChar, natDigits_lt n d (by rw [hd]; simp), ?_⟩
    simp [natStr, hd]

theorem string_data_append (a b : String) : (a ++ b).data = a.data ++ b.data := rfl

theorem formatInt_inj : ∀ {v w : Int}, formatInt v = formatInt w → v = w := by
  intro v w h
  unfold formatInt at h
  by_cases hv : v < 0 <;> by_cases hw : w < 0
  · rw [if_pos hv, if_pos hw] at h
    have hdata := congrArg String.data h
    rw [string_data_append, string_data_append] at hdata
    have : (natStr v.natAbs).data = (natStr w.natAbs).data :=
      List.append_cancel_left hdata
    have habs : v.natAbs = w.natAbs := natStr_inj (by
      cases hmk : natStr v.natAbs
      cases hmk2 : natStr w.natAbs
      simp_all)
    omega
  · rw [if_pos hv, if_neg hw] at h
    exfalso
    obtain ⟨d, rest, hlt, hcons⟩ := natStr_data_cons w.toNat
    have hdata := congrArg String.data h
    rw [string_data_append, hcons] at hdata
    have : '-' = Nat.digitChar d := by
      have := congrArg List.head? hdata
      simpa using this
    exact digitChar_ne_dash hlt this.symm
  · rw [if_neg hv, if_pos hw] at h
    exfalso
    obtain ⟨d, rest, hlt, hcons⟩ := natStr_data_cons v.toNat
    have hdata := congrArg String.data h
    rw [string_data_append, hcons] at hdata
    have : Nat.digitChar d = '-' := by
      have := congrArg List.head? hdata
      simpa using this
    exact digitChar_ne_dash hlt this
  · rw [if_neg hv, if_neg hw] at h
    have := natStr_inj h
    omega

end KopsValidation

namespace KopsValidation

/-! ## Helper lemmas: enumeration membership -/

theorem formatInt_mem_validSpotDurations (v : Int) :
    validSpotDurations.contains (formatInt v) = true
      ↔ v ∈ ([60, 120, 180, 240, 300, 360] : List Int) := by
  have hmap : validSpotDurations = ([60, 120, 180, 240, 300, 360] : List Int).map formatInt := by
    decide
  rw [List.elem_iff, hmap, List.mem_map]
  constructor
  · rintro ⟨w, hw, heq⟩
    exact (formatInt_inj heq) ▸ hw
  · intro hv
    exact ⟨v, hv, rfl⟩

theorem flatMap_guard_eq_filter_map {α β : Type} (p : α → Bool) (f : α → β) :
    ∀ l : List α, (l.flatMap fun t => if p t then [] else [f t])
      = (l.filter fun t => !(p t)).map f := by
  intro l
  induction l with
  | nil => rfl
  | cons a l ih => cases h : p a <;> simp [List.filter_cons, h, ih]

/-! ## Claim theorems -/

/-- C7: with a spot duration present, a value in the set 60, 120, 180, 240,
300, 360 yields no error and any other integer yields exactly one
Unsupported error at the spot-duration field path; an absent spot duration
yields no error. -/
theorem claim_c7_spotDuration (fieldPath : Path) (ig : InstanceGroup) :
    (ig.spec.spotDurationInMinutes = none →
      awsValidateSpotDurationInMinute fieldPath ig = []) ∧
    (∀ v : Int, ig.spec.spotDurationInMinutes = some v →
      (v ∈ ([60, 120, 180, 240, 300, 360] : List Int) →
        awsValidateSpotDurationInMinute fieldPath ig = []) ∧
      (v ∉ ([60, 120, 180, 240, 300, 360] : List Int) →
        awsValidateSpotDurationInMinute fieldPath ig =
          [⟨.Unsupported, fieldPath, some (formatInt v),
            "supported values: " ++ joinSep ", " validSpotDurations⟩])) := by
  constructor
  · intro h
    simp [awsValidateSpotDurationInMinute, h]
  · intro v hv
    constructor
    · intro hmem
      have hc : validSpotDurations.contains (formatInt v) = true :=
        (formatInt_mem_validSpotDurations v).mpr hmem
      simp [awsValidateSpotDurationInMinute, hv, IsValidValue, hc]
      exact List.elem_iff.mp hc
    · intro hmem
      have hc : validSpotDurations.contains (formatInt v) = false := by
        cases hcc : validSpotDurations.contains (formatInt v)
        · rfl
        · exact absurd ((formatInt_mem_validSpotDurations v).mp hcc) hmem
      simp [awsValidateSpotDurationInMinute, hv, IsValidValue, hc]
      intro hm
      have h1 : validSpotDurations.contains (formatInt v) = true := List.elem_iff.mpr hm
      rw [hc] at h1
      exact Bool.noConfusion h1

/-- Witness for C7 at concrete inputs: duration 120 passes, duration 55 is
Unsupported. -/
theorem claim_c7_spotDuration_witness :
    awsValidateSpotDurationInMinute (NewPath ["test-nodes", "spec", "spotDurationInMinutes"])
        ⟨"test-nodes", ⟨[], "", some 120, none, none, none, none⟩⟩ = [] ∧
    awsValidateSpotDurationInMinute (NewPath ["test-nodes", "spec", "spotDurationInMinutes"])
        ⟨"test-nodes", ⟨[], "", some 55, none, none, none, none⟩⟩ =
      [⟨.Unsupported, NewPath ["test-nodes", "spec", "spotDurationInMinutes"], some (formatInt 55),
        "supported values: " ++ joinSep ", " validSpotDurations⟩] :=
  ⟨((claim_c7_spotDuration (NewPath ["test-nodes", "spec", "spotDurationInMinutes"])
      ⟨"test-nodes", ⟨[], "", some 120, none, none, none, none⟩⟩).2 120 rfl).1 (by decide),
   ((claim_c7_spotDuration (NewPath ["test-nodes", "spec", "spotDurationInMinutes"])
      ⟨"test-nodes", ⟨[], "", some 55, none, none, none, none⟩⟩).2 55 rfl).2 (by decide)⟩

/-- C5: when the capability port is absent or the machine-type value is
empty, no machine-type errors are emitted; otherwise the value is split on
commas and each candidate whose resolution fails yields one Invalid at the
parent field path, with no per-candidate index and without aborting. -/
theorem claim_c5_instanceType (fieldPath : Path) (instanceType : String) :
    (awsValidateInstanceType fieldPath instanceType none = []) ∧
    (∀ cloud : AWSCloud, instanceType = "" →
      awsValidateInstanceType fieldPath instanceType cloud = []) ∧
    (∀ resolve : String → Bool, instanceType ≠ "" →
      awsValidateInstanceType fieldPath instanceType (some resolve)
        = ((goSplit instanceType ',').filter (fun typ => !(resolve typ))).map
            (fun typ => ⟨.Invalid, fieldPath, some typ, "machine type specified is invalid"⟩)) := by
  refine ⟨rfl, ?_, ?_⟩
  · intro cloud h
    cases cloud with
    | none => rfl
    | some resolve => simp [awsValidateInstanceType, h]
  · intro resolve h
    simp only [awsValidateInstanceType, if_neg h]
    exact flatMap_guard_eq_filter_map resolve _ _

/-- Witness for C5 at a concrete input: of the two comma-separated
candidates only the unresolvable one yields an Invalid, at the parent path. -/
theorem claim_c5_instanceType_witness :
    awsValidateInstanceType (NewPath ["test-nodes", "spec", "machineType"]) "t2.micro,bad"
        (some (fun t => t == "t2.micro"))
      = [⟨.Invalid, NewPath ["test-nodes", "spec", "machineType"], some "bad",
          "machine type specified is invalid"⟩] := by
  rw [(claim_c5_instanceType (NewPath ["test-nodes", "spec", "machineType"])
        "t2.micro,bad").2.2 (fun t => t == "t2.micro") (by decide)]
  decide

end KopsValidation

namespace KopsValidation

/-! ## Helper lemma: the security-group loop against the spec description -/

theorem sgFrom_eq_spec (fieldPath : Path) :
    ∀ (rest pre : List String),
      awsValidateSecurityGroupsFrom fieldPath pre.length pre rest
        = (List.enumFrom pre.length rest).flatMap
            (fun ix => securityGroupEntrySpec fieldPath (pre.reverse ++ rest) ix.1 ix.2) := by
  intro rest
  induction rest with
  | nil => intro pre; simp [awsValidateSecurityGroupsFrom]
  | cons s tl ih =>
    intro pre
    have htake : (pre.reverse ++ s :: tl).take pre.length = pre.reverse := by
      have h := List.take_left pre.reverse (s :: tl)
      rwa [List.length_reverse] at h
    have hrec := ih (s :: pre)
    have hgroups : (s :: pre).reverse ++ tl = pre.reverse ++ s :: tl := by
      simp [List.reverse_cons, List.append_assoc]
    rw [hgroups, List.length_cons] at hrec
    simp only [awsValidateSecurityGroupsFrom, List.enumFrom_cons, List.flatMap_cons, hrec]
    congr 1
    simp only [securityGroupEntrySpec, htake]
    by_cases hmem : s ∈ pre
    · have hm2 : s ∈ pre.reverse := List.mem_reverse.mpr hmem
      simp [hmem, hm2]
    · have hm2 : s ∉ pre.reverse := fun h => hmem (List.mem_reverse.mp h)
      simp [hmem, hm2]

/-- C2: the additional-security-groups validator agrees, entry by entry, with
the spec's per-entry description (duplicate of an earlier entry ⇒ Duplicate
at its index; blank entry ⇒ Invalid at its index, suppressing the prefix
check for that entry only; non-blank entry without the `sg-` prefix ⇒
Invalid at its index), and the four concrete example lists behave exactly as
stated. -/
theorem claim_c2_securityGroups (fieldPath : Path) (groups : List String) :
    awsValidateAdditionalSecurityGroups fieldPath groups
      = groups.enum.flatMap (fun ix => securityGroupEntrySpec fieldPath groups ix.1 ix.2)
    ∧ awsValidateAdditionalSecurityGroups fieldPath ["sg-1234abcd"] = []
    ∧ awsValidateAdditionalSecurityGroups fieldPath ["sg-1234abcd", ""] =
        [⟨.Invalid, Path.index fieldPath 1, some "",
          "security group cannot be empty, if specified"⟩]
    ∧ awsValidateAdditionalSecurityGroups fieldPath [" ", ""] =
        [⟨.Invalid, Path.index fieldPath 0, some " ",
          "security group cannot be empty, if specified"⟩,
         ⟨.Invalid, Path.index fieldPath 1, some "",
          "security group cannot be empty, if specified"⟩]
    ∧ awsValidateAdditionalSecurityGroups fieldPath ["--invalid"] =
        [⟨.Invalid, Path.index fieldPath 0, some "--invalid",
          "security group does not match the expected AWS format"⟩] := by
  refine ⟨?_, rfl, rfl, rfl, rfl⟩
  have h := sgFrom_eq_spec fieldPath groups []
  simpa [awsValidateAdditionalSecurityGroups, List.enum] using h

end KopsValidation

namespace KopsValidation

/-- C4: with an external cloud-controller-manager declared, exactly one
Forbidden error is emitted at spec.externalCloudControllerManager unless the
kube-controller-manager's external-cloud-volume-plugin is "aws" or the cloud
configuration enables the AWS EBS CSI driver; with either integration
present, or no external controller manager declared, no error is emitted. -/
theorem claim_c4_externalCCM (c : ClusterSpec) :
    (c.externalCloudControllerManager = none →
      awsValidateExternalCloudControllerManager c = []) ∧
    (∀ u : Unit, c.externalCloudControllerManager = some u →
      ((¬ (∃ kcm, c.kubeControllerManager = some kcm ∧ kcm.externalCloudVolumePlugin = "aws") ∧
        ¬ (∃ cc d, c.cloudConfig = some cc ∧ cc.awsEBSCSIDriver = some d ∧ d.enabled = some true)) →
        awsValidateExternalCloudControllerManager c =
          [⟨.Forbidden, NewPath ["spec", "externalCloudControllerManager"], none,
            "AWS external CCM cannot be used without enabling spec.cloudConfig.AWSEBSCSIDriver or setting spec.kubeControllerManaager.externalCloudVolumePlugin set to `aws`"⟩]) ∧
      (((∃ kcm, c.kubeControllerManager = some kcm ∧ kcm.externalCloudVolumePlugin = "aws") ∨
        (∃ cc d, c.cloudConfig = some cc ∧ cc.awsEBSCSIDriver = some d ∧ d.enabled = some true)) →
        awsValidateExternalCloudControllerManager c = [])) := by
  constructor
  · intro h
    simp [awsValidateExternalCloudControllerManager, h]
  · intro u hu
    constructor
    · rintro ⟨hno1, hno2⟩
      have h1 : (match c.kubeControllerManager with
          | none => false
          | some kcm => kcm.externalCloudVolumePlugin == "aws") = false := by
        cases hk : c.kubeControllerManager with
        | none => rfl
        | some kcm =>
          by_cases hp : kcm.externalCloudVolumePlugin = "aws"
          · exact absurd ⟨kcm, hk, hp⟩ hno1
          · simp [hp]
      have h2 : (match c.cloudConfig with
          | none => false
          | some cc =>
            match cc.awsEBSCSIDriver with
            | none => false
            | some d => BoolValue d.enabled) = false := by
        cases hc1 : c.cloudConfig with
        | none => rfl
        | some cc =>
          cases hc2 : cc.awsEBSCSIDriver with
          | none => simp [hc2]
          | some d =>
            by_cases he : d.enabled = some true
            · exact absurd ⟨cc, d, hc1, hc2, he⟩ hno2
            · cases hb : d.enabled with
              | none => simp [hc2, BoolValue, hb]
              | some b =>
                cases b
                · simp [hc2, BoolValue, hb]
                · exact absurd hb he
      simp [awsValidateExternalCloudControllerManager, hu, h1, h2]
    · rintro (⟨kcm, hk, hp⟩ | ⟨cc, d, hc1, hc2, he⟩)
      · simp [awsValidateExternalCloudControllerManager, hu, hk, hp]
      · simp [awsValidateExternalCloudControllerManager, hu, hc1, hc2, he, BoolValue]

/-- Witness for C4: a cluster with an external CCM and no integration gets
the single Forbidden error; declaring the "aws" volume plugin clears it. -/
theorem claim_c4_externalCCM_witness :
    awsValidateExternalCloudControllerManager ⟨[], none, some (), none, none⟩ =
      [⟨.Forbidden, NewPath ["spec", "externalCloudControllerManager"], none,
        "AWS external CCM cannot be used without enabling spec.cloudConfig.AWSEBSCSIDriver or setting spec.kubeControllerManaager.externalCloudVolumePlugin set to `aws`"⟩] ∧
    awsValidateExternalCloudControllerManager ⟨[], none, some (), some ⟨"aws"⟩, none⟩ = [] :=
  ⟨((claim_c4_externalCCM ⟨[], none, some (), none, none⟩).2 () rfl).1
      ⟨by simp, by simp⟩,
   ((claim_c4_externalCCM ⟨[], none, some (), some ⟨"aws"⟩, none⟩).2 () rfl).2
      (Or.inl ⟨⟨"aws"⟩, rfl, rfl⟩)⟩

end KopsValidation

namespace KopsValidation

/-- C8: a present httpTokens value outside the set "optional"/"required"
yields Unsupported at .httpTokens; a present hop limit outside [1,64]
(including negative values) yields Invalid at .httpPutResponseHopLimit; the
two concrete examples behave exactly as the spec states. -/
theorem claim_c8_instanceMetadata (fieldPath : Path) (md : InstanceMetadataOptions) :
    (∀ t, md.httpTokens = some t → t ∉ (["optional", "required"] : List String) →
      (⟨.Unsupported, Path.child fieldPath "httpTokens", some t,
        "supported values: " ++ joinSep ", " ["optional", "required"]⟩ : VError)
        ∈ awsValidateInstanceMetadata fieldPath md) ∧
    (∀ n : Int, md.httpPutResponseHopLimit = some n → (n < 1 ∨ n > 64) →
      (⟨.Invalid, Path.child fieldPath "httpPutResponseHopLimit", some (formatInt n),
        "HTTPPutResponseLimit must be a value between 1 and 64"⟩ : VError)
        ∈ awsValidateInstanceMetadata fieldPath md) ∧
    awsValidateInstanceMetadata fieldPath ⟨some "abc", none⟩ =
      [⟨.Unsupported, Path.child fieldPath "httpTokens", some "abc",
        "supported values: " ++ joinSep ", " ["optional", "required"]⟩] ∧
    awsValidateInstanceMetadata fieldPath ⟨some "required", some (-1)⟩ =
      [⟨.Invalid, Path.child fieldPath "httpPutResponseHopLimit", some (formatInt (-1)),
        "HTTPPutResponseLimit must be a value between 1 and 64"⟩] := by
  refine ⟨?_, ?_, rfl, rfl⟩
  · intro t ht hmem
    have hc : (["optional", "required"] : List String).contains t = false := by
      cases hcc : (["optional", "required"] : List String).contains t
      · rfl
      · exact absurd (List.elem_iff.mp hcc) hmem
    refine List.mem_append_left _ ?_
    simp [ht, IsValidValue, hc]
    simpa using hmem
  · intro n hn hrange
    refine List.mem_append_right _ ?_
    simp only [hn, Int64Value, Option.getD_some]
    rw [if_pos hrange]
    simp [Int64Value, hn]

/-- Witness for C8 at a concrete field path: httpTokens "abc" is Unsupported
and a hop limit of -1 is Invalid. -/
theorem claim_c8_instanceMetadata_witness :
    (⟨.Unsupported, Path.child (NewPath ["spec", "instanceMetadata"]) "httpTokens", some "abc",
      "supported values: " ++ joinSep ", " ["optional", "required"]⟩ : VError)
      ∈ awsValidateInstanceMetadata (NewPath ["spec", "instanceMetadata"]) ⟨some "abc", some 1⟩ ∧
    (⟨.Invalid, Path.child (NewPath ["spec", "instanceMetadata"]) "httpPutResponseHopLimit",
      some (formatInt (-1)), "HTTPPutResponseLimit must be a value between 1 and 64"⟩ : VError)
      ∈ awsValidateInstanceMetadata (NewPath ["spec", "instanceMetadata"]) ⟨some "required", some (-1)⟩ :=
  ⟨(claim_c8_instanceMetadata (NewPath ["spec", "instanceMetadata"]) ⟨some "abc", some 1⟩).1
      "abc" rfl (by decide),
   (claim_c8_instanceMetadata (NewPath ["spec", "instanceMetadata"]) ⟨some "required", some (-1)⟩).2.1
      (-1) rfl (by decide)⟩

end KopsValidation

namespace KopsValidation

/-- C9: each mixed-instances instance-type candidate is validated by the
single machine-type check at a per-index path under .instances; a present
onDemandBase yields Invalid when negative and Invalid when above the group's
configured maximum size; a present onDemandAboveBase yields Invalid outside
[0,100]; spotAllocationStrategy goes through the generic enumeration check
against the provider's allocation strategies, and an absent value yields no
error. -/
theorem claim_c9_mixedInstancesPolicy (path : Path) (spec : MixedInstancesPolicySpec)
    (ig : InstanceGroup) (cloud : AWSCloud) :
    (∀ (i : Nat) (x : String), spec.instances[i]? = some x →
      ∀ e ∈ awsValidateInstanceType (Path.index (Path.child path "instances") i) x cloud,
        e ∈ awsValidateMixedInstancesPolicy path spec ig cloud) ∧
    (∀ b : Int, spec.onDemandBase = some b → b < 0 →
      (⟨.Invalid, Path.child path "onDemandBase", some (formatInt b),
        "cannot be less than zero"⟩ : VError)
        ∈ awsValidateMixedInstancesPolicy path spec ig cloud) ∧
    (∀ b : Int, spec.onDemandBase = some b → b > Int32Value ig.spec.maxSize →
      (⟨.Invalid, Path.child path "onDemandBase", some (formatInt b),
        "cannot be greater than max size"⟩ : VError)
        ∈ awsValidateMixedInstancesPolicy path spec ig cloud) ∧
    (∀ a : Int, spec.onDemandAboveBase = some a → a < 0 →
      (⟨.Invalid, Path.child path "onDemandAboveBase", some (formatInt a),
        "cannot be less than 0"⟩ : VError)
        ∈ awsValidateMixedInstancesPolicy path spec ig cloud) ∧
    (∀ a : Int, spec.onDemandAboveBase = some a → a > 100 →
      (⟨.Invalid, Path.child path "onDemandAboveBase", some (formatInt a),
        "cannot be greater than 100"⟩ : VError)
        ∈ awsValidateMixedInstancesPolicy path spec ig cloud) ∧
    (∀ s, spec.spotAllocationStrategy = some s → s ∉ SpotAllocationStrategies →
      (⟨.Unsupported, Path.child path "spotAllocationStrategy", some s,
        "supported values: " ++ joinSep ", " SpotAllocationStrategies⟩ : VError)
        ∈ awsValidateMixedInstancesPolicy path spec ig cloud) ∧
    (spec.spotAllocationStrategy = none →
      IsValidValue (Path.child path "spotAllocationStrategy") spec.spotAllocationStrategy
        SpotAllocationStrategies = []) := by
  refine ⟨?_, ?_, ?_, ?_, ?_, ?_, ?_⟩
  · intro i x hx e he
    have hp : (i, x) ∈ spec.instances.enum :=
      List.mem_enum_iff_getElem?.mpr (by simpa using hx)
    unfold awsValidateMixedInstancesPolicy
    refine List.mem_append_left _ (List.mem_append_left _ (List.mem_append_left _ ?_))
    exact List.mem_flatMap.mpr ⟨(i, x), hp, he⟩
  · intro b hb hneg
    unfold awsValidateMixedInstancesPolicy
    refine List.mem_append_left _ (List.mem_append_left _ (List.mem_append_right _ ?_))
    simp only [hb, Int64Value, Option.getD_some]
    refine List.mem_append_left _ ?_
    rw [if_pos hneg]
    simp
  · intro b hb hgt
    unfold awsValidateMixedInstancesPolicy
    refine List.mem_append_left _ (List.mem_append_left _ (List.mem_append_right _ ?_))
    simp only [hb, Int64Value, Option.getD_some]
    refine List.mem_append_right _ ?_
    rw [if_pos hgt]
    simp
  · intro a ha hneg
    unfold awsValidateMixedInstancesPolicy
    refine List.mem_append_left _ (List.mem_append_right _ ?_)
    simp only [ha, Int64Value, Option.getD_some]
    refine List.mem_append_left _ ?_
    rw [if_pos hneg]
    simp
  · intro a ha hgt
    unfold awsValidateMixedInstancesPolicy
    refine List.mem_append_left _ (List.mem_append_right _ ?_)
    simp only [ha, Int64Value, Option.getD_some]
    refine List.mem_append_right _ ?_
    rw [if_pos hgt]
    simp
  · intro s hs hmem
    have hc : SpotAllocationStrategies.contains s = false := by
      cases hcc : SpotAllocationStrategies.contains s
      · rfl
      · exact absurd (List.elem_iff.mp hcc) hmem
    unfold awsValidateMixedInstancesPolicy
    refine List.mem_append_right _ ?_
    simp [hs, IsValidValue, hc]
    simpa [SpotAllocationStrategies] using hmem
  · intro h
    simp [IsValidValue, h]

/-- Witness for C9 at concrete inputs: an unresolvable candidate is Invalid
at .instances[0], onDemandBase 5 exceeds max size 3, and an unknown
spotAllocationStrategy is Unsupported. -/
theorem claim_c9_mixedInstancesPolicy_witness :
    (⟨.Invalid, Path.index (Path.child (NewPath ["spec", "mixedInstancesPolicy"]) "instances") 0,
      some "bad", "machine type specified is invalid"⟩ : VError)
      ∈ awsValidateMixedInstancesPolicy (NewPath ["spec", "mixedInstancesPolicy"])
          ⟨["bad"], some 5, some 101, some "weird"⟩
          ⟨"ig", ⟨[], "", none, none, some 3, none, none⟩⟩ (some (fun _ => false)) ∧
    (⟨.Invalid, Path.child (NewPath ["spec", "mixedInstancesPolicy"]) "onDemandBase",
      some (formatInt 5), "cannot be greater than max size"⟩ : VError)
      ∈ awsValidateMixedInstancesPolicy (NewPath ["spec", "mixedInstancesPolicy"])
          ⟨["bad"], some 5, some 101, some "weird"⟩
          ⟨"ig", ⟨[], "", none, none, some 3, none, none⟩⟩ (some (fun _ => false)) ∧
    (⟨.Unsupported, Path.child (NewPath ["spec", "mixedInstancesPolicy"]) "spotAllocationStrategy",
      some "weird", "supported values: " ++ joinSep ", " SpotAllocationStrategies⟩ : VError)
      ∈ awsValidateMixedInstancesPolicy (NewPath ["spec", "mixedInstancesPolicy"])
          ⟨["bad"], some 5, some 101, some "weird"⟩
          ⟨"ig", ⟨[], "", none, none, some 3, none, none⟩⟩ (some (fun _ => false)) :=
  ⟨(claim_c9_mixedInstancesPolicy (NewPath ["spec", "mixedInstancesPolicy"])
      ⟨["bad"], some 5, some 101, some "weird"⟩
      ⟨"ig", ⟨[], "", none, none, some 3, none, none⟩⟩ (some (fun _ => false))).1
      0 "bad" rfl _ (by decide),
   (claim_c9_mixedInstancesPolicy (NewPath ["spec", "mixedInstancesPolicy"])
      ⟨["bad"], some 5, some 101, some "weird"⟩
      ⟨"ig", ⟨[], "", none, none, some 3, none, none⟩⟩ (some (fun _ => false))).2.2.1
      5 rfl (by decide),
   (claim_c9_mixedInstancesPolicy (NewPath ["spec", "mixedInstancesPolicy"])
      ⟨["bad"], some 5, some 101, some "weird"⟩
      ⟨"ig", ⟨[], "", none, none, some 3, none, none⟩⟩ (some (fun _ => false))).2.2.2.2.2.1
      "weird" rfl (by decide)⟩

end KopsValidation

namespace KopsValidation

/-! ## Helper lemmas: the field-path shapes of each rule's errors -/

theorem mem_ite_singleton {c : Prop} [Decidable c] {e x : VError}
    (h : e ∈ (if c then [x] else ([] : List VError))) : e = x := by
  split at h
  · simpa using h
  · simp at h

theorem sgFrom_path_shape (fieldPath : Path) :
    ∀ (rest : List String) (i : Nat) (names : List String),
      ∀ e ∈ awsValidateSecurityGroupsFrom fieldPath i names rest,
        ∃ k, e.path = Path.index fieldPath k := by
  intro rest
  induction rest with
  | nil =>
    intro i names e he
    simp [awsValidateSecurityGroupsFrom] at he
  | cons s tl ih =>
    intro i names e he
    simp only [awsValidateSecurityGroupsFrom, List.mem_append] at he
    rcases he with (h | h) | h
    · obtain rfl := mem_ite_singleton h
      exact ⟨i, rfl⟩
    · split at h
      · simp only [List.mem_singleton] at h
        exact ⟨i, by rw [h]⟩
      · split at h
        · simp at h
        · simp only [List.mem_singleton] at h
          exact ⟨i, by rw [h]⟩
    · exact ih (i + 1) (s :: names) e h

theorem IsValidValue_path (p : Path) (v : Option String) (vals : List String) :
    ∀ e ∈ IsValidValue p v vals, e.path = p := by
  intro e he
  cases v with
  | none => simp [IsValidValue] at he
  | some s =>
    simp only [IsValidValue] at he
    split at he
    · simp at he
    · simp only [List.mem_singleton] at he
      rw [he]

theorem awsValidateInstanceType_path (p : Path) (t : String) (cloud : AWSCloud) :
    ∀ e ∈ awsValidateInstanceType p t cloud, e.path = p := by
  intro e he
  cases cloud with
  | none => simp [awsValidateInstanceType] at he
  | some resolve =>
    by_cases h : t = ""
    · simp [awsValidateInstanceType, h] at he
    · simp only [awsValidateInstanceType, if_neg h] at he
      obtain ⟨typ, _, hmem⟩ := List.mem_flatMap.mp he
      split at hmem
      · simp at hmem
      · simp only [List.mem_singleton] at hmem
        rw [hmem]

theorem awsValidateSpotDurationInMinute_path (p : Path) (ig : InstanceGroup) :
    ∀ e ∈ awsValidateSpotDurationInMinute p ig, e.path = p := by
  intro e he
  cases h : ig.spec.spotDurationInMinutes with
  | none => simp [awsValidateSpotDurationInMinute, h] at he
  | some v =>
    simp only [awsValidateSpotDurationInMinute, h] at he
    exact IsValidValue_path p _ _ e he

theorem awsValidateInstanceInterruptionBehavior_path (p : Path) (ig : InstanceGroup) :
    ∀ e ∈ awsValidateInstanceInterruptionBehavior p ig, e.path = p := by
  intro e he
  cases h : ig.spec.instanceInterruptionBehavior with
  | none => simp [awsValidateInstanceInterruptionBehavior, h] at he
  | some b =>
    simp only [awsValidateInstanceInterruptionBehavior, h] at he
    exact IsValidValue_path p _ _ e he

theorem awsValidateInstanceMetadata_path (p : Path) (md : InstanceMetadataOptions) :
    ∀ e ∈ awsValidateInstanceMetadata p md, ∃ s, e.path = Path.child p s := by
  obtain ⟨tok, hop⟩ := md
  intro e he
  simp only [awsValidateInstanceMetadata, List.mem_append] at he
  rcases he with h | h
  · cases tok with
    | none => simp at h
    | some t =>
      exact ⟨"httpTokens", IsValidValue_path (Path.child p "httpTokens") _ _ e h⟩
  · cases hop with
    | none => simp at h
    | some n =>
      refine ⟨"httpPutResponseHopLimit", ?_⟩
      obtain rfl := mem_ite_singleton (by simpa using h)
      rfl

theorem awsValidateMixedInstancesPolicy_path (p : Path) (spec : MixedInstancesPolicySpec)
    (ig : InstanceGroup) (cloud : AWSCloud) :
    ∀ e ∈ awsValidateMixedInstancesPolicy p spec ig cloud,
      ∃ suffix, e.path = p ++ suffix := by
  obtain ⟨insts, base, above, strat⟩ := spec
  intro e he
  simp only [awsValidateMixedInstancesPolicy, List.mem_append] at he
  rcases he with ((h | h) | h) | h
  · obtain ⟨ix, _, hmem⟩ := List.mem_flatMap.mp h
    have hp := awsValidateInstanceType_path _ _ _ e hmem
    exact ⟨[PathSeg.field "instances", PathSeg.idx ix.1],
      by rw [hp]; simp [Path.index, Path.child]⟩
  · cases base with
    | none => simp at h
    | some b =>
      rcases List.mem_append.mp h with h2 | h2 <;>
      · obtain rfl := mem_ite_singleton h2
        exact ⟨[PathSeg.field "onDemandBase"], rfl⟩
  · cases above with
    | none => simp at h
    | some a =>
      rcases List.mem_append.mp h with h2 | h2 <;>
      · obtain rfl := mem_ite_singleton h2
        exact ⟨[PathSeg.field "onDemandAboveBase"], rfl⟩
  · have hp := IsValidValue_path (Path.child p "spotAllocationStrategy") _ _ e h
    exact ⟨[PathSeg.field "spotAllocationStrategy"], hp⟩

/-- C10: the instance-group validator is the fixed-order concatenation of its
six rules, and the error paths are not uniformly rooted: machine-type,
spot-duration and interruption-behavior errors live under the instance
group's name, while security-group, mixed-instances-policy and
instance-metadata errors live under a bare `spec` root. -/
theorem claim_c10_instanceGroupPathRoots (ig : InstanceGroup) (cloud : AWSCloud) :
    awsValidateInstanceGroup ig cloud
      = awsValidateAdditionalSecurityGroups (NewPath ["spec", "additionalSecurityGroups"])
          ig.spec.additionalSecurityGroups
        ++ awsValidateInstanceType (NewPath [ig.name, "spec", "machineType"])
             ig.spec.machineType cloud
        ++ awsValidateSpotDurationInMinute (NewPath [ig.name, "spec", "spotDurationInMinutes"]) ig
        ++ awsValidateInstanceInterruptionBehavior
             (NewPath [ig.name, "spec", "instanceInterruptionBehavior"]) ig
        ++ (match ig.spec.mixedInstancesPolicy with
            | none => []
            | some mip =>
              awsValidateMixedInstancesPolicy (NewPath ["spec", "mixedInstancesPolicy"]) mip ig cloud)
        ++ (match ig.spec.instanceMetadata with
            | none => []
            | some md => awsValidateInstanceMetadata (NewPath ["spec", "instanceMetadata"]) md)
    ∧ (∀ e ∈ awsValidateAdditionalSecurityGroups (NewPath ["spec", "additionalSecurityGroups"])
          ig.spec.additionalSecurityGroups,
        e.path.head? = some (PathSeg.field "spec"))
    ∧ (∀ e ∈ awsValidateInstanceType (NewPath [ig.name, "spec", "machineType"])
          ig.spec.machineType cloud,
        e.path.head? = some (PathSeg.field ig.name))
    ∧ (∀ e ∈ awsValidateSpotDurationInMinute (NewPath [ig.name, "spec", "spotDurationInMinutes"]) ig,
        e.path.head? = some (PathSeg.field ig.name))
    ∧ (∀ e ∈ awsValidateInstanceInterruptionBehavior
          (NewPath [ig.name, "spec", "instanceInterruptionBehavior"]) ig,
        e.path.head? = some (PathSeg.field ig.name))
    ∧ (∀ mip, ig.spec.mixedInstancesPolicy = some mip →
        ∀ e ∈ awsValidateMixedInstancesPolicy (NewPath ["spec", "mixedInstancesPolicy"]) mip ig cloud,
          e.path.head? = some (PathSeg.field "spec"))
    ∧ (∀ md, ig.spec.instanceMetadata = some md →
        ∀ e ∈ awsValidateInstanceMetadata (NewPath ["spec", "instanceMetadata"]) md,
          e.path.head? = some (PathSeg.field "spec")) := by
  refine ⟨rfl, ?_, ?_, ?_, ?_, ?_, ?_⟩
  · intro e he
    obtain ⟨k, hk⟩ := sgFrom_path_shape (NewPath ["spec", "additionalSecurityGroups"])
      ig.spec.additionalSecurityGroups 0 [] e he
    rw [hk]
    simp [Path.index, NewPath]
  · intro e he
    rw [awsValidateInstanceType_path _ _ _ e he]
    simp [NewPath]
  · intro e he
    rw [awsValidateSpotDurationInMinute_path _ _ e he]
    simp [NewPath]
  · intro e he
    rw [awsValidateInstanceInterruptionBehavior_path _ _ e he]
    simp [NewPath]
  · intro mip hmip e he
    obtain ⟨suf, hs⟩ := awsValidateMixedInstancesPolicy_path _ _ _ _ e he
    rw [hs]
    simp [NewPath]
  · intro md hmd e he
    obtain ⟨s, hs⟩ := awsValidateInstanceMetadata_path _ _ e he
    rw [hs]
    simp [Path.child, NewPath]

/-- Witness for C10: with one bad security-group entry and one bad machine
type, the security-group error is rooted at `spec` while the machine-type
error is rooted at the group name `test-nodes`. -/
theorem claim_c10_instanceGroupPathRoots_witness :
    (⟨.Invalid, Path.index (NewPath ["spec", "additionalSecurityGroups"]) 0, some "--invalid",
      "security group does not match the expected AWS format"⟩ : VError).path.head?
        = some (PathSeg.field "spec") ∧
    (⟨.Invalid, NewPath ["test-nodes", "spec", "machineType"], some "t2.invalidType",
      "machine type specified is invalid"⟩ : VError).path.head?
        = some (PathSeg.field "test-nodes") :=
  ⟨(claim_c10_instanceGroupPathRoots
      ⟨"test-nodes", ⟨["--invalid"], "t2.invalidType", none, none, none, none, none⟩⟩
      (some (fun _ => false))).2.1 _ (by decide),
   (claim_c10_instanceGroupPathRoots
      ⟨"test-nodes", ⟨["--invalid"], "t2.invalidType", none, none, none, none, none⟩⟩
      (some (fun _ => false))).2.2.1 _ (by decide)⟩

end KopsValidation

namespace KopsValidation

/-! ## Helper lemmas: load-balancer subnet bindings -/

theorem find?_eq_some_first {α : Type} (p : α → Bool) :
    ∀ {l : List α} {a : α}, l.find? p = some a →
      ∃ l₁ l₂, l = l₁ ++ a :: l₂ ∧ p a = true ∧ ∀ x ∈ l₁, p x = false := by
  intro l
  induction l with
  | nil => intro a h; simp [List.find?] at h
  | cons x xs ih =>
    intro a h
    cases hp : p x with
    | true =>
      rw [List.find?_cons_of_pos _ hp] at h
      obtain rfl := Option.some.inj h
      exact ⟨[], xs, rfl, hp, by intro y hy; simp at hy⟩
    | false =>
      rw [List.find?_cons_of_neg _ (by simp [hp])] at h
      obtain ⟨l₁, l₂, rfl, hpa, hall⟩ := ih h
      refine ⟨x :: l₁, l₂, rfl, hpa, ?_⟩
      intro y hy
      rcases List.mem_cons.mp hy with rfl | hy2
      · exact hp
      · exact hall y hy2

theorem path_child_inj {p : Path} {a b : String} (h : Path.child p a = Path.child p b) :
    a = b := by
  simp only [Path.child] at h
  have h2 := List.append_cancel_left h
  simpa using h2

theorem mem_lbSubnets_of_mem_binding {fieldPath : Path} {spec : ClusterSpec}
    {api : AccessSpec} {lbSpec : LoadBalancerAccessSpec}
    (hapi : spec.api = some api) (hlb : api.loadBalancer = some lbSpec)
    {i : Nat} {subnet : LoadBalancerSubnetSpec} (hsub : lbSpec.subnets[i]? = some subnet)
    {e : VError} (he : e ∈ validateLBSubnet fieldPath spec lbSpec i subnet) :
    e ∈ awsValidateLoadBalancerSubnets fieldPath spec := by
  simp only [awsValidateLoadBalancerSubnets, hapi, hlb]
  exact List.mem_flatMap.mpr
    ⟨(i, subnet), List.mem_enum_iff_getElem?.mpr (by simpa using hsub), he⟩

theorem lbSubnetNameErrs_path (fieldPath : Path) (subs : List ClusterSubnetSpec)
    (k : Nat) (sn : LoadBalancerSubnetSpec) :
    ∀ e ∈ (lbSubnetNameErrs fieldPath subs k sn).1,
      e.path = Path.child (Path.index fieldPath k) "name" := by
  intro e he
  simp only [lbSubnetNameErrs] at he
  split at he
  · simp only [List.mem_singleton] at he
    rw [he]
  · split at he
    · simp at he
    · simp only [List.mem_singleton] at he
      rw [he]

theorem lbSubnetPrivateIPErrs_path (fieldPath : Path) (lbClass lbType : String)
    (cs : Option ClusterSubnetSpec) (k : Nat) (sn : LoadBalancerSubnetSpec) :
    ∀ e ∈ lbSubnetPrivateIPErrs fieldPath lbClass lbType cs k sn,
      e.path = Path.child (Path.index fieldPath k) "privateIPv4Address" := by
  obtain ⟨nm, p4, aid⟩ := sn
  intro e he
  cases p4 with
  | none => simp [lbSubnetPrivateIPErrs] at he
  | some addr =>
    simp only [lbSubnetPrivateIPErrs, List.mem_append] at he
    rcases he with (h | h) | h
    · obtain rfl := mem_ite_singleton h
      rfl
    · split at h
      · simp only [List.mem_singleton] at h
        rw [h]
      · split at h
        · simp at h
        · split at h
          · simp at h
          · split at h
            · simp at h
            · simp only [List.mem_singleton] at h
              rw [h]
    · obtain rfl := mem_ite_singleton h
      rfl

theorem lbSubnetAllocationIDErrs_path (fieldPath : Path) (lbClass lbType : String)
    (k : Nat) (sn : LoadBalancerSubnetSpec) :
    ∀ e ∈ lbSubnetAllocationIDErrs fieldPath lbClass lbType k sn,
      e.path = Path.child (Path.index fieldPath k) "allocationID" := by
  obtain ⟨nm, p4, aid⟩ := sn
  intro e he
  cases aid with
  | none => simp [lbSubnetAllocationIDErrs] at he
  | some a =>
    simp only [lbSubnetAllocationIDErrs, List.mem_append] at he
    rcases he with h | h
    · obtain rfl := mem_ite_singleton h
      rfl
    · obtain rfl := mem_ite_singleton h
      rfl

end KopsValidation

namespace KopsValidation

/-- C6: per load-balancer subnet binding, an empty name yields Required at
subnets[i].name; a non-empty name with no exact match among the cluster
subnets yields NotFound there; a matching non-empty name resolves to the
first cluster subnet with exactly that name, and that record (and nothing
else) feeds the private-address block of the binding. -/
theorem claim_c6_lbSubnetNames
    (fieldPath : Path) (spec : ClusterSpec) (api : AccessSpec) (lbSpec : LoadBalancerAccessSpec)
    (hapi : spec.api = some api) (hlb : api.loadBalancer = some lbSpec)
    (i : Nat) (subnet : LoadBalancerSubnetSpec) (hsub : lbSpec.subnets[i]? = some subnet) :
    (subnet.name = "" →
      (⟨.Required, Path.child (Path.index fieldPath i) "name", none,
        "subnet name can\x27t be empty"⟩ : VError)
        ∈ awsValidateLoadBalancerSubnets fieldPath spec) ∧
    (subnet.name ≠ "" →
      spec.subnets.find? (fun cs => subnet.name == cs.name) = none →
      (⟨.NotFound, Path.child (Path.index fieldPath i) "name",
        some ("subnet \"" ++ subnet.name ++ "\" not found in cluster subnets"),
        "not found"⟩ : VError)
        ∈ awsValidateLoadBalancerSubnets fieldPath spec) ∧
    (∀ cs, subnet.name ≠ "" →
      spec.subnets.find? (fun c => subnet.name == c.name) = some cs →
      (∃ pre post, spec.subnets = pre ++ cs :: post ∧ cs.name = subnet.name ∧
        ∀ c ∈ pre, c.name ≠ subnet.name) ∧
      validateLBSubnet fieldPath spec lbSpec i subnet
        = lbSubnetPrivateIPErrs fieldPath lbSpec.lbClass lbSpec.lbType (some cs) i subnet
          ++ lbSubnetAllocationIDErrs fieldPath lbSpec.lbClass lbSpec.lbType i subnet) := by
  refine ⟨?_, ?_, ?_⟩
  · intro h
    refine mem_lbSubnets_of_mem_binding hapi hlb hsub ?_
    simp [validateLBSubnet, lbSubnetNameErrs, if_pos h]
  · intro hne hfind
    refine mem_lbSubnets_of_mem_binding hapi hlb hsub ?_
    simp [validateLBSubnet, lbSubnetNameErrs, if_neg hne, hfind]
  · intro cs hne hfind
    constructor
    · obtain ⟨l₁, l₂, heq, hpa, hall⟩ := find?_eq_some_first _ hfind
      refine ⟨l₁, l₂, heq, (beq_iff_eq.mp hpa).symm, ?_⟩
      intro c hc hcn
      have := hall c hc
      rw [hcn.symm] at this
      simp at this
    · simp [validateLBSubnet, lbSubnetNameErrs, if_neg hne, hfind]

/-- Witness for C6: an empty binding name is Required, a binding name `d`
absent from the cluster subnets is NotFound. -/
theorem claim_c6_lbSubnetNames_witness :
    (⟨.Required,
      Path.child (Path.index (NewPath ["spec", "api", "loadBalancer", "subnets"]) 0) "name", none,
      "subnet name can\x27t be empty"⟩ : VError)
      ∈ awsValidateLoadBalancerSubnets (NewPath ["spec", "api", "loadBalancer", "subnets"])
          ⟨[⟨"a", "10.0.0.0/24"⟩], some ⟨some ⟨"Network", "Internal", [⟨"", none, none⟩]⟩⟩,
           none, none, none⟩ ∧
    (⟨.NotFound,
      Path.child (Path.index (NewPath ["spec", "api", "loadBalancer", "subnets"]) 0) "name",
      some ("subnet \"" ++ "d" ++ "\" not found in cluster subnets"), "not found"⟩ : VError)
      ∈ awsValidateLoadBalancerSubnets (NewPath ["spec", "api", "loadBalancer", "subnets"])
          ⟨[⟨"a", "10.0.0.0/24"⟩], some ⟨some ⟨"Network", "Internal", [⟨"d", none, none⟩]⟩⟩,
           none, none, none⟩ :=
  ⟨(claim_c6_lbSubnetNames (NewPath ["spec", "api", "loadBalancer", "subnets"])
      ⟨[⟨"a", "10.0.0.0/24"⟩], some ⟨some ⟨"Network", "Internal", [⟨"", none, none⟩]⟩⟩,
       none, none, none⟩
      ⟨some ⟨"Network", "Internal", [⟨"", none, none⟩]⟩⟩
      ⟨"Network", "Internal", [⟨"", none, none⟩]⟩ rfl rfl 0 ⟨"", none, none⟩ rfl).1 rfl,
   (claim_c6_lbSubnetNames (NewPath ["spec", "api", "loadBalancer", "subnets"])
      ⟨[⟨"a", "10.0.0.0/24"⟩], some ⟨some ⟨"Network", "Internal", [⟨"d", none, none⟩]⟩⟩,
       none, none, none⟩
      ⟨some ⟨"Network", "Internal", [⟨"d", none, none⟩]⟩⟩
      ⟨"Network", "Internal", [⟨"d", none, none⟩]⟩ rfl rfl 0 ⟨"d", none, none⟩ rfl).2.1
      (by decide) (by decide)⟩

end KopsValidation

namespace KopsValidation

/-- C3: for a binding with a private IPv4 address present, the Forbidden
error at .privateIPv4Address is emitted exactly when not (class = Network
and type = Internal); with an allocation ID present, the Forbidden error at
.allocationID is emitted exactly when not (class = Network and type ≠
Internal); and the private-address and allocation-ID blocks are independent:
neither reads the other's field, so a binding carrying both values is
checked against both rule sets. -/
theorem claim_c3_lbSubnetForbidden (fieldPath : Path) (spec : ClusterSpec)
    (lbSpec : LoadBalancerAccessSpec) (i : Nat) (subnet : LoadBalancerSubnetSpec) :
    (∀ addr, subnet.privateIPv4Address = some addr →
      ((⟨.Forbidden, Path.child (Path.index fieldPath i) "privateIPv4Address", none,
         "privateIPv4Address only allowed for internal NLBs"⟩ : VError)
          ∈ validateLBSubnet fieldPath spec lbSpec i subnet
        ↔ ¬(lbSpec.lbClass = LoadBalancerClassNetwork ∧
            lbSpec.lbType = LoadBalancerTypeInternal))) ∧
    (∀ aid, subnet.allocationID = some aid →
      ((⟨.Forbidden, Path.child (Path.index fieldPath i) "allocationID", none,
         "allocationID only allowed for Public NLBs"⟩ : VError)
          ∈ validateLBSubnet fieldPath spec lbSpec i subnet
        ↔ ¬(lbSpec.lbClass = LoadBalancerClassNetwork ∧
            ¬lbSpec.lbType = LoadBalancerTypeInternal))) ∧
    (∀ (r : Option ClusterSubnetSpec) (aid' : Option String),
      lbSubnetPrivateIPErrs fieldPath lbSpec.lbClass lbSpec.lbType r i
          { subnet with allocationID := aid' }
        = lbSubnetPrivateIPErrs fieldPath lbSpec.lbClass lbSpec.lbType r i subnet) ∧
    (∀ p4 : Option String,
      lbSubnetAllocationIDErrs fieldPath lbSpec.lbClass lbSpec.lbType i
          { subnet with privateIPv4Address := p4 }
        = lbSubnetAllocationIDErrs fieldPath lbSpec.lbClass lbSpec.lbType i subnet) := by
  refine ⟨?_, ?_, ?_, ?_⟩
  · intro addr haddr
    constructor
    · intro hmem
      simp only [validateLBSubnet, List.mem_append] at hmem
      rcases hmem with (h | h) | h
      · have hp := lbSubnetNameErrs_path fieldPath spec.subnets i subnet _ h
        exact absurd (path_child_inj hp) (by decide)
      · simp only [lbSubnetPrivateIPErrs, haddr, List.mem_append] at h
        rcases h with (h2 | h2) | h2
        · have := mem_ite_singleton h2
          simp at this
        · split at h2
          · simp at h2
          · split at h2
            · simp at h2
            · split at h2
              · simp at h2
              · split at h2
                · simp at h2
                · simp at h2
        · split at h2
          · rename_i hcond
            exact fun hand => by
              rcases hcond with hcl | hty
              · exact hcl hand.1
              · exact hty hand.2
          · simp at h2
      · have hp := lbSubnetAllocationIDErrs_path fieldPath _ _ i subnet _ h
        exact absurd (path_child_inj hp) (by decide)
    · intro hcond
      have hdisj : ¬lbSpec.lbClass = LoadBalancerClassNetwork ∨
          ¬lbSpec.lbType = LoadBalancerTypeInternal := not_and_or.mp hcond
      simp only [validateLBSubnet, List.mem_append]
      refine Or.inl (Or.inr ?_)
      simp only [lbSubnetPrivateIPErrs, haddr, List.mem_append]
      refine Or.inr ?_
      rw [if_pos hdisj]
      simp
  · intro aid haid
    constructor
    · intro hmem
      simp only [validateLBSubnet, List.mem_append] at hmem
      rcases hmem with (h | h) | h
      · have hp := lbSubnetNameErrs_path fieldPath spec.subnets i subnet _ h
        exact absurd (path_child_inj hp) (by decide)
      · have hp := lbSubnetPrivateIPErrs_path fieldPath _ _ _ i subnet _ h
        exact absurd (path_child_inj hp) (by decide)
      · simp only [lbSubnetAllocationIDErrs, haid, List.mem_append] at h
        rcases h with h2 | h2
        · have := mem_ite_singleton h2
          simp at this
        · split at h2
          · rename_i hcond
            exact fun hand => by
              rcases hcond with hcl | hty
              · exact hcl hand.1
              · exact hand.2 hty
          · simp at h2
    · intro hcond
      have hdisj : ¬lbSpec.lbClass = LoadBalancerClassNetwork ∨
          lbSpec.lbType = LoadBalancerTypeInternal := by
        by_cases hcl : lbSpec.lbClass = LoadBalancerClassNetwork
        · right
          by_contra hty
          exact hcond ⟨hcl, hty⟩
        · exact Or.inl hcl
      simp only [validateLBSubnet, List.mem_append]
      refine Or.inr ?_
      simp only [lbSubnetAllocationIDErrs, haid, List.mem_append]
      refine Or.inr ?_
      rw [if_pos hdisj]
      simp
  · intro r aid'
    obtain ⟨nm, p4, aid⟩ := subnet
    rfl
  · intro p4'
    obtain ⟨nm, p4, aid⟩ := subnet
    rfl

/-- Witness for C3: on a classic-class load balancer, a binding with both a
private address and an allocation ID gets both Forbidden errors. -/
theorem claim_c3_lbSubnetForbidden_witness :
    (⟨.Forbidden,
      Path.child (Path.index (NewPath ["spec", "api", "loadBalancer", "subnets"]) 0)
        "privateIPv4Address", none,
      "privateIPv4Address only allowed for internal NLBs"⟩ : VError)
      ∈ validateLBSubnet (NewPath ["spec", "api", "loadBalancer", "subnets"])
          ⟨[⟨"a", "10.0.0.0/24"⟩], none, none, none, none⟩
          ⟨"Classic", "Internal", []⟩ 0
          ⟨"a", some "10.0.0.10", some "eipalloc-222ghi789"⟩ ∧
    (⟨.Forbidden,
      Path.child (Path.index (NewPath ["spec", "api", "loadBalancer", "subnets"]) 0)
        "allocationID", none,
      "allocationID only allowed for Public NLBs"⟩ : VError)
      ∈ validateLBSubnet (NewPath ["spec", "api", "loadBalancer", "subnets"])
          ⟨[⟨"a", "10.0.0.0/24"⟩], none, none, none, none⟩
          ⟨"Classic", "Internal", []⟩ 0
          ⟨"a", some "10.0.0.10", some "eipalloc-222ghi789"⟩ :=
  ⟨((claim_c3_lbSubnetForbidden (NewPath ["spec", "api", "loadBalancer", "subnets"])
      ⟨[⟨"a", "10.0.0.0/24"⟩], none, none, none, none⟩
      ⟨"Classic", "Internal", []⟩ 0
      ⟨"a", some "10.0.0.10", some "eipalloc-222ghi789"⟩).1 "10.0.0.10" rfl).mpr (by decide),
   ((claim_c3_lbSubnetForbidden (NewPath ["spec", "api", "loadBalancer", "subnets"])
      ⟨[⟨"a", "10.0.0.0/24"⟩], none, none, none, none⟩
      ⟨"Classic", "Internal", []⟩ 0
      ⟨"a", some "10.0.0.10", some "eipalloc-222ghi789"⟩).2.1 "eipalloc-222ghi789" rfl).mpr
      (by decide)⟩

end KopsValidation

namespace KopsValidation

/-- C1: for a binding with a private IPv4 address present, an empty string
yields Required at .privateIPv4Address; a non-empty string that is not a
valid IPv4 literal yields Invalid there; a valid address outside the
resolved cluster subnet's (parsed) CIDR yields Invalid there; and when the
subnet name did not resolve (empty or not found) the binding emits no
CIDR-containment Invalid at all. -/
theorem claim_c1_lbSubnetPrivateIP
    (fieldPath : Path) (spec : ClusterSpec) (api : AccessSpec) (lbSpec : LoadBalancerAccessSpec)
    (hapi : spec.api = some api) (hlb : api.loadBalancer = some lbSpec)
    (i : Nat) (subnet : LoadBalancerSubnetSpec) (hsub : lbSpec.subnets[i]? = some subnet)
    (addr : String) (haddr : subnet.privateIPv4Address = some addr) :
    (addr = "" →
      (⟨.Required, Path.child (Path.index fieldPath i) "privateIPv4Address", none,
        "privateIPv4Address can\x27t be empty"⟩ : VError)
        ∈ awsValidateLoadBalancerSubnets fieldPath spec) ∧
    (addr ≠ "" → goParseIPv4 addr = none →
      (⟨.Invalid, Path.child (Path.index fieldPath i) "privateIPv4Address", some subnet.name,
        "privateIPv4Address is not a valid IPv4 address"⟩ : VError)
        ∈ awsValidateLoadBalancerSubnets fieldPath spec) ∧
    (∀ ip cs cidr, goParseIPv4 addr = some ip →
      subnet.name ≠ "" →
      spec.subnets.find? (fun c => subnet.name == c.name) = some cs →
      goParseCIDR cs.cidr = some cidr →
      cidrContains cidr ip = false →
      (⟨.Invalid, Path.child (Path.index fieldPath i) "privateIPv4Address", some subnet.name,
        "privateIPv4Address is not part of the subnet CIDR"⟩ : VError)
        ∈ awsValidateLoadBalancerSubnets fieldPath spec) ∧
    ((subnet.name = "" ∨ spec.subnets.find? (fun c => subnet.name == c.name) = none) →
      (⟨.Invalid, Path.child (Path.index fieldPath i) "privateIPv4Address", some subnet.name,
        "privateIPv4Address is not part of the subnet CIDR"⟩ : VError)
        ∉ validateLBSubnet fieldPath spec lbSpec i subnet) := by
  refine ⟨?_, ?_, ?_, ?_⟩
  · intro h
    refine mem_lbSubnets_of_mem_binding hapi hlb hsub ?_
    simp only [validateLBSubnet, List.mem_append]
    refine Or.inl (Or.inr ?_)
    simp only [lbSubnetPrivateIPErrs, haddr, List.mem_append]
    refine Or.inl (Or.inl ?_)
    rw [if_pos h]
    simp
  · intro hne hparse
    refine mem_lbSubnets_of_mem_binding hapi hlb hsub ?_
    simp only [validateLBSubnet, List.mem_append]
    refine Or.inl (Or.inr ?_)
    simp only [lbSubnetPrivateIPErrs, haddr, List.mem_append, hparse]
    refine Or.inl (Or.inr ?_)
    simp
  · intro ip cs cidr hparse hname hfind hcidr hcontain
    refine mem_lbSubnets_of_mem_binding hapi hlb hsub ?_
    have hr : lbSubnetNameErrs fieldPath spec.subnets i subnet = ([], some cs) := by
      simp [lbSubnetNameErrs, if_neg hname, hfind]
    simp only [validateLBSubnet, hr, List.mem_append]
    refine Or.inl (Or.inr ?_)
    simp only [lbSubnetPrivateIPErrs, haddr, List.mem_append, hparse, hcidr, hcontain]
    refine Or.inl (Or.inr ?_)
    simp
  · intro hcase
    have hr2 : (lbSubnetNameErrs fieldPath spec.subnets i subnet).2 = none := by
      rcases hcase with h | h
      · simp [lbSubnetNameErrs, if_pos h]
      · by_cases hne : subnet.name = ""
        · simp [lbSubnetNameErrs, if_pos hne]
        · simp [lbSubnetNameErrs, if_neg hne, h]
    intro hmem
    simp only [validateLBSubnet, List.mem_append] at hmem
    rcases hmem with (h | h) | h
    · have hp := lbSubnetNameErrs_path fieldPath spec.subnets i subnet _ h
      exact absurd (path_child_inj hp) (by decide)
    · simp only [lbSubnetPrivateIPErrs, haddr, List.mem_append] at h
      rcases h with (h2 | h2) | h2
      · have := mem_ite_singleton h2
        simp at this
      · split at h2
        · simp at h2
        · rw [hr2] at h2
          simp at h2
      · have := mem_ite_singleton h2
        simp at this
    · have hp := lbSubnetAllocationIDErrs_path fieldPath _ _ i subnet _ h
      exact absurd (path_child_inj hp) (by decide)

/-- Witness for C1: with cluster subnet `a` = 10.0.0.0/24, the address
11.0.0.10 parses but lies outside the CIDR, so the binding gets the
containment Invalid; with subnet name `d` unresolved, the same address
yields no containment Invalid for the binding. -/
theorem claim_c1_lbSubnetPrivateIP_witness :
    (⟨.Invalid,
      Path.child (Path.index (NewPath ["spec", "api", "loadBalancer", "subnets"]) 0)
        "privateIPv4Address", some "a",
      "privateIPv4Address is not part of the subnet CIDR"⟩ : VError)
      ∈ awsValidateLoadBalancerSubnets (NewPath ["spec", "api", "loadBalancer", "subnets"])
          ⟨[⟨"a", "10.0.0.0/24"⟩],
           some ⟨some ⟨"Network", "Internal", [⟨"a", some "11.0.0.10", none⟩]⟩⟩,
           none, none, none⟩ ∧
    (⟨.Invalid,
      Path.child (Path.index (NewPath ["spec", "api", "loadBalancer", "subnets"]) 0)
        "privateIPv4Address", some "d",
      "privateIPv4Address is not part of the subnet CIDR"⟩ : VError)
      ∉ validateLBSubnet (NewPath ["spec", "api", "loadBalancer", "subnets"])
          ⟨[⟨"a", "10.0.0.0/24"⟩],
           some ⟨some ⟨"Network", "Internal", [⟨"d", some "11.0.0.10", none⟩]⟩⟩,
           none, none, none⟩
          ⟨"Network", "Internal", [⟨"d", some "11.0.0.10", none⟩]⟩ 0
          ⟨"d", some "11.0.0.10", none⟩ :=
  ⟨(claim_c1_lbSubnetPrivateIP (NewPath ["spec", "api", "loadBalancer", "subnets"])
      ⟨[⟨"a", "10.0.0.0/24"⟩],
       some ⟨some ⟨"Network", "Internal", [⟨"a", some "11.0.0.10", none⟩]⟩⟩,
       none, none, none⟩
      ⟨some ⟨"Network", "Internal", [⟨"a", some "11.0.0.10", none⟩]⟩⟩
      ⟨"Network", "Internal", [⟨"a", some "11.0.0.10", none⟩]⟩ rfl rfl 0
      ⟨"a", some "11.0.0.10", none⟩ rfl "11.0.0.10" rfl).2.2.1
      (11, 0, 0, 10) ⟨"a", "10.0.0.0/24"⟩ ((10, 0, 0, 0), 24)
      (by decide) (by decide) (by decide) (by decide) (by decide),
   (claim_c1_lbSubnetPrivateIP (NewPath ["spec", "api", "loadBalancer", "subnets"])
      ⟨[⟨"a", "10.0.0.0/24"⟩],
       some ⟨some ⟨"Network", "Internal", [⟨"d", some "11.0.0.10", none⟩]⟩⟩,
       none, none, none⟩
      ⟨some ⟨"Network", "Internal", [⟨"d", some "11.0.0.10", none⟩]⟩⟩
      ⟨"Network", "Internal", [⟨"d", some "11.0.0.10", none⟩]⟩ rfl rfl 0
      ⟨"d", some "11.0.0.10", none⟩ rfl "11.0.0.10" rfl).2.2.2
      (Or.inr (by decide))⟩

end KopsValidation
